import Mathlib

/-!
Verification of the exclusive-Esc interception and interrupt-escalation
subsystem of `src/main.py`.

The Python source is shallowly embedded:

* `_simplify_for_teacher` (the error classifier) becomes the pure function
  `simplify_for_teacher`, with Python's `str.strip`, `str.lower` and the
  substring operator `in` modelled by `pyStrip`, `pyLower` and `strHasSub`
  on code-point lists.  Lean's `Char.toLower` lowercases only basic-latin
  letters and `Char.isWhitespace` covers space/tab/CR/LF; the classifier's
  patterns are ASCII or Chinese (caseless), so this models the Python
  behaviour on the inputs relevant here.
* the four terminal-signal handlers (`show_completion_notification`,
  `show_error_notification`, `show_threshold_exceeded_notification`,
  `show_manual_intervention_notification`) become `handleSignal`, a step
  function on the single piece of coordinator state
  `_suppress_error_dialog_until : float` (modelled as `ℚ`), returning the
  ordered list of externally visible actions each handler performs.
* the `_WindowsExclusiveEscHook` object becomes the state record `EscHook`
  with `hookStart` / `setEnabled`, and its low-level hook callback becomes
  `hookProcF`, with the two user callbacks (`should_swallow`, `on_esc`)
  given as `Except Unit _` values so that an exception raised inside the
  callback can be represented.
* the application-level wrappers `_enable_exclusive_esc_if_possible` and
  `_disable_exclusive_esc` become `enableExclusiveEscIfPossible` and
  `disableExclusiveEsc` over `AppEsc`, parametrised by the platform flag
  (`sys.platform == 'win32'`) and the availability of the optional
  `keyboard` library.
-/

/-- Predicate `isSubAt n l`: `n` occurs as a contiguous block at the head of `l`. -/
def isSubAt : List Char → List Char → Bool
  | [], _ => true
  | _ :: _, [] => false
  | n :: ns, h :: hs => (n == h) && isSubAt ns hs

/-- Predicate `hasSub n l`: `n` occurs as a contiguous block somewhere in `l`
(the model of Python's `n in l` on strings). -/
def hasSub (needle : List Char) : List Char → Bool
  | [] => needle.isEmpty
  | h :: hs => isSubAt needle (h :: hs) || hasSub needle hs

/-- Python `needle in hay` for strings. -/
def strHasSub (needle hay : String) : Bool :=
  hasSub needle.data hay.data

/-- Python `str.lower()` (ASCII letters; the source's patterns are ASCII
or caseless Chinese). -/
def pyLower (s : String) : String :=
  ⟨s.data.map Char.toLower⟩

/-- Python `str.strip()`: drop whitespace from both ends. -/
def pyStrip (s : String) : String :=
  ⟨((s.data.dropWhile Char.isWhitespace).reverse.dropWhile Char.isWhitespace).reverse⟩

/-- Category message for the timeout patterns (src/main.py:445). -/
def timeoutMsg : String := "网络可能不稳定（连接超时）。建议：检查网络，稍等再试。"

/-- Category message for the authentication patterns (src/main.py:447). -/
def authMsg : String := "密钥可能不正确或已失效。建议：重新复制密钥再试。"

/-- Category message for the quota/forbidden patterns (src/main.py:449). -/
def quotaMsg : String := "账号可能没有权限或余额/额度不足。建议：检查账号余额/额度。"

/-- Category message for the rate-limit patterns (src/main.py:451). -/
def rateLimitMsg : String := "请求太频繁，平台临时限制。建议：等10~30秒再试。"

/-- Category message for the upstream-unavailable patterns (src/main.py:453). -/
def upstreamMsg : String := "平台服务繁忙或临时不可用。建议：稍后再试或换备用平台。"

/-- Category message for the file-locked/permission patterns (src/main.py:455). -/
def fileLockMsg : String := "文件可能被占用或没有写入权限。建议：关闭Excel后再试。"

/-- The dedicated message returned when the stripped input is empty
(src/main.py:457). -/
def noReasonMsg : String := "发生了错误，但没有收到具体原因。"

/-- The generic fallback of the classifier (src/main.py:458): the stripped
message truncated to 80 characters, with an ellipsis appended when it is
longer than 80 characters. -/
def fallbackEcho (t : String) : String :=
  "发生了错误：" ++ String.mk (t.data.take 80) ++
    (if 80 < t.data.length then "…" else "")

/-- Body of `Application._simplify_for_teacher` after `t = (text or "").strip()`
has been computed; `low` is `t.lower()` (src/main.py:442-458). -/
def simplifyStripped (t : String) : String :=
  if (["timed out", "timeout"] : List String).any (fun k => strHasSub k (pyLower t)) then
    timeoutMsg
  else if (["401", "unauthorized", "invalid api key"] : List String).any
      (fun k => strHasSub k (pyLower t)) then
    authMsg
  else if (["403", "forbidden", "quota", "余额", "payment", "insufficient"] : List String).any
      (fun k => strHasSub k (pyLower t)) then
    quotaMsg
  else if (["429", "rate limit", "too many"] : List String).any
      (fun k => strHasSub k (pyLower t)) then
    rateLimitMsg
  else if (["502", "503", "504", "service unavailable", "bad gateway"] : List String).any
      (fun k => strHasSub k (pyLower t)) then
    upstreamMsg
  else if (["permission", "access is denied", "被占用", "正在使用"] : List String).any
      (fun k => strHasSub k (pyLower t)) then
    fileLockMsg
  else if t.isEmpty then
    noReasonMsg
  else
    fallbackEcho t

/-- Function `Application._simplify_for_teacher` (src/main.py:440-458). -/
def simplify_for_teacher (text : String) : String :=
  simplifyStripped (pyStrip text)

/-- The classifier's ordered pattern table, written down exactly as the spec
describes it: an ordered list of (pattern set, category), evaluated
top-to-bottom, first match wins. -/
def classifyTable : List (List String × String) :=
  [(["timed out", "timeout"], timeoutMsg),
   (["401", "unauthorized", "invalid api key"], authMsg),
   (["403", "forbidden", "quota", "余额", "payment", "insufficient"], quotaMsg),
   (["429", "rate limit", "too many"], rateLimitMsg),
   (["502", "503", "504", "service unavailable", "bad gateway"], upstreamMsg),
   (["permission", "access is denied", "被占用", "正在使用"], fileLockMsg)]

/-- First match in priority order over an ordered pattern table. -/
def firstMatch (low : String) : List (List String × String) → Option String
  | [] => none
  | (pats, cat) :: rest =>
      if pats.any (fun k => strHasSub k low) then some cat else firstMatch low rest

/-- The classifier as the spec words it: first match in the fixed priority
order over `classifyTable` wins; otherwise the fallback (the dedicated
no-reason message when the trimmed text is empty, the truncated echo
otherwise). -/
def classifySpec (text : String) : String :=
  match firstMatch (pyLower (pyStrip text)) classifyTable with
  | some cat => cat
  | none =>
      if (pyStrip text).isEmpty then noReasonMsg else fallbackEcho (pyStrip text)

theorem simplify_eq_classifySpec (s : String) :
    simplify_for_teacher s = classifySpec s := by
  unfold simplify_for_teacher simplifyStripped classifySpec classifyTable
  simp only [firstMatch]
  split_ifs <;> rfl

theorem isSubAt_iff (n l : List Char) : isSubAt n l = true ↔ ∃ b, l = n ++ b := by
  induction n generalizing l with
  | nil => simp [isSubAt]
  | cons c ns ih =>
    cases l with
    | nil =>
      simp only [isSubAt]
      constructor
      · intro h; cases h
      · rintro ⟨b, hb⟩; cases hb
    | cons d ls =>
      simp only [isSubAt, Bool.and_eq_true, beq_iff_eq, ih, List.cons_append]
      constructor
      · rintro ⟨rfl, b, rfl⟩
        exact ⟨b, rfl⟩
      · rintro ⟨b, hb⟩
        injection hb with h1 h2
        exact ⟨h1.symm, b, h2⟩

theorem hasSub_iff (n l : List Char) : hasSub n l = true ↔ ∃ a b, l = a ++ n ++ b := by
  induction l with
  | nil =>
    simp only [hasSub, List.isEmpty_iff]
    constructor
    · rintro rfl; exact ⟨[], [], rfl⟩
    · rintro ⟨a, b, hab⟩
      obtain ⟨han, _⟩ := List.append_eq_nil.mp hab.symm
      obtain ⟨_, hn⟩ := List.append_eq_nil.mp han
      exact hn
  | cons c ls ih =>
    simp only [hasSub, Bool.or_eq_true, ih, isSubAt_iff]
    constructor
    · rintro (⟨b, hb⟩ | ⟨a, b, hb⟩)
      · exact ⟨[], b, by simpa using hb⟩
      · exact ⟨c :: a, b, by simp [hb]⟩
    · rintro ⟨a, b, hab⟩
      cases a with
      | nil =>
        left
        exact ⟨b, by simpa using hab⟩
      | cons x a2 =>
        right
        rw [List.cons_append, List.cons_append] at hab
        injection hab with h1 h2
        exact ⟨a2, b, h2⟩

theorem isWhitespace_toLower (c : Char) :
    (Char.toLower c).isWhitespace = c.isWhitespace := by
  by_cases hws : c.isWhitespace = true
  · have hc : c = ' ' ∨ c = '\t' ∨ c = '\r' ∨ c = '\n' := by
      simpa [Char.isWhitespace, or_assoc] using hws
    rcases hc with rfl | rfl | rfl | rfl <;> decide
  · rw [Bool.not_eq_true] at hws
    rw [hws]
    simp only [Char.toLower]
    split
    · next h =>
      obtain ⟨h1, h2⟩ := h
      generalize hn : c.toNat = n at h1 h2 ⊢
      interval_cases n <;> decide
    · next _ => exact hws

theorem dropWhile_map_toLower (l : List Char) :
    (l.map Char.toLower).dropWhile Char.isWhitespace
      = (l.dropWhile Char.isWhitespace).map Char.toLower := by
  induction l with
  | nil => rfl
  | cons c ls ih =>
    by_cases h : c.isWhitespace = true
    · simp [List.dropWhile_cons, isWhitespace_toLower, h, ih]
    · rw [Bool.not_eq_true] at h
      simp [List.dropWhile_cons, isWhitespace_toLower, h]

/-- Stripping commutes with lowercasing, because `Char.toLower` maps
whitespace to whitespace and non-whitespace to non-whitespace. -/
theorem stripL_map_toLower (l : List Char) :
    (((l.dropWhile Char.isWhitespace).reverse.dropWhile Char.isWhitespace).reverse).map
        Char.toLower
      = (((l.map Char.toLower).dropWhile Char.isWhitespace).reverse.dropWhile
          Char.isWhitespace).reverse := by
  rw [dropWhile_map_toLower, ← List.map_reverse, dropWhile_map_toLower, ← List.map_reverse]

theorem dropWhile_occ {c0 : Char} (h0 : c0.isWhitespace = false)
    (m : List Char) (a b : List Char) :
    ∃ a1, (a ++ (c0 :: m) ++ b).dropWhile Char.isWhitespace = a1 ++ (c0 :: m) ++ b := by
  induction a with
  | nil =>
    refine ⟨[], ?_⟩
    simp [List.dropWhile_cons, h0]
  | cons x a2 ih =>
    by_cases hx : x.isWhitespace = true
    · obtain ⟨a1, ha1⟩ := ih
      refine ⟨a1, ?_⟩
      simpa [List.dropWhile_cons, hx] using ha1
    · rw [Bool.not_eq_true] at hx
      refine ⟨x :: a2, ?_⟩
      simp [List.dropWhile_cons, hx]

/-- An occurrence of a needle whose first and last characters are not
whitespace survives stripping whitespace from both ends of the haystack. -/
theorem hasSub_stripL {n l : List Char}
    (hhead : ∃ c0 m, n = c0 :: m ∧ c0.isWhitespace = false)
    (hlast : ∃ d0 m, n.reverse = d0 :: m ∧ d0.isWhitespace = false)
    (h : hasSub n l = true) :
    hasSub n (((l.dropWhile Char.isWhitespace).reverse.dropWhile
      Char.isWhitespace).reverse) = true := by
  obtain ⟨c0, m, rfl, h0⟩ := hhead
  obtain ⟨d0, m2, hrev, hd⟩ := hlast
  obtain ⟨a, b, rfl⟩ := (hasSub_iff _ _).mp h
  obtain ⟨a1, ha1⟩ := dropWhile_occ h0 m a b
  rw [ha1]
  have hr : (a1 ++ (c0 :: m) ++ b).reverse
      = b.reverse ++ (d0 :: m2) ++ a1.reverse := by
    rw [List.reverse_append, List.reverse_append, hrev, ← List.append_assoc]
  rw [hr]
  obtain ⟨b1, hb1⟩ := dropWhile_occ hd m2 b.reverse a1.reverse
  rw [hb1]
  have hrev2 : (d0 :: m2).reverse = c0 :: m := by
    rw [← hrev, List.reverse_reverse]
  refine (hasSub_iff _ _).mpr ⟨a1, b1.reverse, ?_⟩
  rw [List.reverse_append, List.reverse_append, List.reverse_reverse, hrev2,
    ← List.append_assoc]

/-- Helper: any message whose lowered, stripped form contains `"timed out"`
is classified into the timeout category (the first branch of the source). -/
theorem simplify_timeout_of_hasSub {s : String}
    (h : strHasSub "timed out" (pyLower (pyStrip s)) = true) :
    simplify_for_teacher s = timeoutMsg := by
  unfold simplify_for_teacher simplifyStripped
  simp [List.any_cons, List.any_nil, h]

/-- Case- and context-independence of the timeout classification: a message
whose lowered form contains `"timed out"` keeps that classification under
arbitrary surrounding text. -/
theorem simplify_timeout_of_sub_middle (pre mid post : String)
    (h : strHasSub "timed out" (pyLower mid) = true) :
    simplify_for_teacher (pre ++ mid ++ post) = timeoutMsg := by
  apply simplify_timeout_of_hasSub
  show hasSub "timed out".data
    ((((pre ++ mid ++ post).data.dropWhile Char.isWhitespace).reverse.dropWhile
        Char.isWhitespace).reverse.map Char.toLower) = true
  rw [stripL_map_toLower, String.data_append, String.data_append,
    List.map_append, List.map_append]
  have hab : ∃ a b, mid.data.map Char.toLower = a ++ "timed out".data ++ b :=
    (hasSub_iff _ _).mp h
  obtain ⟨a, b, hab⟩ := hab
  rw [hab]
  apply hasSub_stripL
  · exact ⟨'t', "imed out".data, by decide, by decide⟩
  · exact ⟨'t', "uo demit".data, by decide, by decide⟩
  · refine (hasSub_iff _ _).mpr ⟨pre.data.map Char.toLower ++ a,
      b ++ post.data.map Char.toLower, ?_⟩
    simp [List.append_assoc]

/-- C4, counterexample: at the whitespace-only input `" "` no pattern
matches, yet the classifier does not echo the (truncated) message: it
returns the fixed no-reason message, which does not even contain the input
and differs from the truncated-echo fallback and from every category. -/
theorem c4_counterexample :
    simplify_for_teacher " " = noReasonMsg ∧
    strHasSub " " noReasonMsg = false ∧
    noReasonMsg ≠ fallbackEcho (pyStrip " ") ∧
    noReasonMsg ∉ [timeoutMsg, authMsg, quotaMsg, rateLimitMsg, upstreamMsg,
      fileLockMsg] := by
  decide

/-- C4 (amended): the error classifier is a deterministic, total, pure
function equal to first-match evaluation over the fixed ordered pattern
table (timeout, authentication, quota/forbidden, rate-limit,
upstream-unavailable, file-locked) by case-insensitive substring matching;
when no pattern matches a message that is nonempty after trimming, the
result echoes the trimmed message truncated to 80 characters with an
ellipsis appended when it is longer (an empty/whitespace-only message gets
a fixed no-reason message instead); and any message whose lowered form
contains "timed out" maps to the timeout category regardless of case or
surrounding text. -/
theorem c4_classifier_amended :
    (∀ s : String, simplify_for_teacher s = classifySpec s) ∧
    (∀ pre mid post : String, strHasSub "timed out" (pyLower mid) = true →
      simplify_for_teacher (pre ++ mid ++ post) = timeoutMsg) :=
  ⟨simplify_eq_classifySpec, simplify_timeout_of_sub_middle⟩

/-- Witness for C4: the amended theorem applied at the spec's own example,
surrounded by text and with changed case, and at a quota-category input. -/
theorem c4_classifier_amended_witness :
    strHasSub "timed out" (pyLower "Connection TIMED OUT after 30s") = true ∧
    simplify_for_teacher ("xx " ++ "Connection TIMED OUT after 30s" ++ " yy")
      = timeoutMsg ∧
    simplify_for_teacher "quota exceeded" = classifySpec "quota exceeded" :=
  ⟨by decide,
   c4_classifier_amended.2 "xx " "Connection TIMED OUT after 30s" " yy" (by decide),
   c4_classifier_amended.1 "quota exceeded"⟩

/-- C10: every input whose whitespace-stripped form is empty is
classified as the fixed dedicated no-reason message, which is neither any
pattern category nor the generic truncated-echo fallback. -/
theorem c10_empty_input (s : String) (h : pyStrip s = "") :
    simplify_for_teacher s = noReasonMsg ∧
    noReasonMsg ∉ [timeoutMsg, authMsg, quotaMsg, rateLimitMsg, upstreamMsg,
      fileLockMsg] ∧
    noReasonMsg ≠ fallbackEcho "" := by
  refine ⟨?_, by decide, by decide⟩
  unfold simplify_for_teacher
  rw [h]
  decide

/-- Witness for C10 at the concrete whitespace-only input `"  "`. -/
theorem c10_empty_input_witness :
    pyStrip "  " = "" ∧ simplify_for_teacher "  " = noReasonMsg :=
  ⟨by decide, (c10_empty_input "  " (by decide)).1⟩

/-- The four terminal signals a worker run can emit; payloads are the Qt
signal arguments wired in `connect_worker_signals` (src/main.py:746-805). -/
inductive Signal
  | completed
  | error (msg : String)
  | thresholdExceeded (reason : String)
  | manualIntervention (msg raw : String)

/-- Externally visible actions of the notification handlers, in program
order: `_disable_exclusive_esc()`, `main_window.on_worker_finished()`,
`update_ui_state(is_running=...)`, `main_window.on_worker_error(msg)`,
showing a modal dialog, and the restore-to-foreground block. -/
inductive UiAction
  | disableEsc
  | workerFinished
  | uiState (running : Bool)
  | workerError (msg : String)
  | showDialog (title msg : String)
  | restoreFront
  deriving DecidableEq

/-- Is this action a user-facing notification dialog? -/
def isDialog : UiAction → Bool
  | .showDialog _ _ => true
  | _ => false

/-- Number of notification dialogs in an action trace. -/
def dialogCount (acts : List UiAction) : Nat := acts.countP isDialog

/-- The needs-manual-review patterns, checked on the raw message in source
order (src/main.py:852). -/
def manualReviewPat (m : String) : Bool :=
  (["需人工介入", "需要人工介入", "人工介入", "异常试卷"] : List String).any
    (fun k => strHasSub k m)

/-- The user-initiated-stop patterns (src/main.py:861). -/
def userStopPat (m : String) : Bool :=
  strHasSub "用户手动停止" m || strHasSub "手动停止" m

/-- Dialog body of `show_completion_notification` (src/main.py:825). -/
def completedBody : String :=
  "✅ 本次自动阅卷已完成！\n\n请复查AI阅卷结果，人工审核0分、满分"

/-- Dialog body of `show_error_notification` (src/main.py:887-889). -/
def errorDialogBody (m : String) : String :=
  "原因：" ++ simplify_for_teacher m ++
    "\n\n建议：检查网络/密钥/模型ID；确认Excel已关闭；必要时切换备用AI平台。"

/-- Dialog body of `show_threshold_exceeded_notification` (src/main.py:915-917). -/
def thresholdBody : String :=
  "两次评分差距过大，需要人工复核。\n\n建议：人工查看该题答题截图，确认分数后再继续下一份。"

/-- Dialog body of `show_manual_intervention_notification` (src/main.py:949). -/
def manualBody (m : String) : String := m ++ "\n\n请人工检查并处理。"

/-- One step of the interrupt coordinator: the handler wired to each
terminal signal, acting on the suppression deadline
`_suppress_error_dialog_until` with arrival time `now` (`time.time()`);
returns the new deadline and the ordered action trace
(src/main.py:816-960). -/
def handleSignal (suppressUntil now : ℚ) : Signal → ℚ × List UiAction
  | .completed =>
      (suppressUntil,
       [.disableEsc, .workerFinished, .showDialog "批次完成" completedBody,
        .restoreFront])
  | .error msg =>
      if now < suppressUntil then
        (suppressUntil, [.disableEsc, .uiState false])
      else if manualReviewPat msg then
        (suppressUntil, [.disableEsc, .uiState false])
      else if userStopPat msg then
        (suppressUntil, [.disableEsc, .workerError "用户手动停止"])
      else
        (suppressUntil,
         [.disableEsc, .workerError msg,
          .showDialog "阅卷中断" (errorDialogBody msg), .restoreFront])
  | .thresholdExceeded reason =>
      (suppressUntil,
       [.disableEsc, .workerError reason,
        .showDialog "双评分差过大" thresholdBody, .restoreFront])
  | .manualIntervention msg _raw =>
      (now + 2,
       [.disableEsc, .uiState false, .showDialog "人工介入" (manualBody msg),
        .restoreFront])

/-- Deliver a timed sequence of terminal signals, threading the suppression
deadline and concatenating the action traces. -/
def runSignals (suppressUntil : ℚ) : List (ℚ × Signal) → ℚ × List UiAction
  | [] => (suppressUntil, [])
  | e :: rest =>
      ((runSignals (handleSignal suppressUntil e.1 e.2).1 rest).1,
       (handleSignal suppressUntil e.1 e.2).2
         ++ (runSignals (handleSignal suppressUntil e.1 e.2).1 rest).2)

/-- C1, counterexample: a run whose only terminal signal is the
user-initiated-stop Error presents zero notifications, and a run delivering
two Completed signals presents two — the coordinator does not guarantee
exactly one notification per run. -/
theorem c1_counterexample :
    dialogCount (runSignals 0 [(1, .error "用户手动停止")]).2 = 0 ∧
    dialogCount (runSignals 0 [(1, .completed), (2, .completed)]).2 = 2 := by
  constructor
  · have h1 : ¬ ((1:ℚ) < 0) := by norm_num
    simp only [runSignals, handleSignal]
    rw [if_neg h1, if_neg (by decide : ¬ manualReviewPat "用户手动停止" = true),
      if_pos (by decide : userStopPat "用户手动停止" = true)]
    decide
  · decide

/-- C1 (amended): each terminal signal produces at most one user-facing
notification dialog, and the raced pair — ManualIntervention followed by an
Error within its 2-second suppression window — produces exactly one
notification in total. -/
theorem c1_one_notification_amended :
    (∀ (u now : ℚ) (sig : Signal), dialogCount (handleSignal u now sig).2 ≤ 1) ∧
    (∀ (u t t2 : ℚ) (msg raw m2 : String), t2 < t + 2 →
      dialogCount (runSignals u [(t, .manualIntervention msg raw),
        (t2, .error m2)]).2 = 1) := by
  constructor
  · intro u now sig
    cases sig <;> simp only [handleSignal] <;> try split_ifs
    all_goals simp [dialogCount, List.countP_cons, isDialog]
  · intro u t t2 msg raw m2 h
    simp [runSignals, handleSignal, h, dialogCount, List.countP_append,
      List.countP_cons, isDialog]

/-- Witness for C1 at a concrete signal and a concrete raced pair. -/
theorem c1_one_notification_amended_witness :
    dialogCount (handleSignal 0 0 Signal.completed).2 ≤ 1 ∧
    dialogCount (runSignals 0 [(0, Signal.manualIntervention "a" "b"),
      (1, Signal.error "x")]).2 = 1 :=
  ⟨c1_one_notification_amended.1 0 0 .completed,
   c1_one_notification_amended.2 0 0 1 "a" "b" "x" (by norm_num)⟩

/-- C2, counterexample: after ManualIntervention at time 0, an Error with
a generic message at exactly time 2 is presented (two dialogs in total), so
the suppression window is the half-open interval; and an Error matching a
user-stop pattern at time 2.1 is not presented (one dialog in total). -/
theorem c2_counterexample :
    dialogCount (runSignals 0 [(0, .manualIntervention "需要人工复核" "x"),
      (2, .error "boom")]).2 = 2 ∧
    dialogCount (runSignals 0 [(0, .manualIntervention "需要人工复核" "x"),
      (21/10, .error "用户手动停止")]).2 = 1 := by
  constructor
  · have h1 : ¬ ((2:ℚ) < 0 + 2) := by norm_num
    simp only [runSignals, handleSignal]
    rw [if_neg h1, if_neg (by decide : ¬ manualReviewPat "boom" = true),
      if_neg (by decide : ¬ userStopPat "boom" = true)]
    decide
  · have h1 : ¬ ((21/10 : ℚ) < 0 + 2) := by norm_num
    simp only [runSignals, handleSignal]
    rw [if_neg h1, if_neg (by decide : ¬ manualReviewPat "用户手动停止" = true),
      if_pos (by decide : userStopPat "用户手动停止" = true)]
    decide

/-- C2 (amended): presenting ManualIntervention at time `t` sets the
suppression deadline to exactly `t + 2`; an Error arriving at `t1 < t + 2`
(half-open window) is suppressed with only the UI running-state reset; an
Error arriving at `t2 ≥ t + 2` whose message matches no manual-review and
no user-stop pattern is presented (e.g. at `t + 2.1`). -/
theorem c2_suppression_window_amended (u t t1 t2 : ℚ) (msg raw m1 m2 : String)
    (h1 : t1 < t + 2) (h2 : t + 2 ≤ t2)
    (hm1 : manualReviewPat m2 = false) (hm2 : userStopPat m2 = false) :
    (handleSignal u t (.manualIntervention msg raw)).1 = t + 2 ∧
    (handleSignal (t + 2) t1 (.error m1)).2 = [.disableEsc, .uiState false] ∧
    (handleSignal (t + 2) t2 (.error m2)).2
      = [.disableEsc, .workerError m2,
         .showDialog "阅卷中断" (errorDialogBody m2), .restoreFront] := by
  refine ⟨rfl, ?_, ?_⟩
  · simp [handleSignal, h1]
  · have h2n : ¬ t2 < t + 2 := not_lt.mpr h2
    simp [handleSignal, h2n, hm1, hm2]

/-- Witness for C2 at concrete times 0, 1 and 2.1 and concrete messages. -/
theorem c2_suppression_window_amended_witness :
    (handleSignal 0 0 (Signal.manualIntervention "需要人工复核" "r")).1 = 0 + 2 ∧
    (handleSignal (0 + 2) 1 (Signal.error "第3题出错")).2
      = [.disableEsc, .uiState false] ∧
    (handleSignal (0 + 2) (21/10) (Signal.error "network down")).2
      = [.disableEsc, .workerError "network down",
         .showDialog "阅卷中断" (errorDialogBody "network down"), .restoreFront] :=
  c2_suppression_window_amended 0 0 1 (21/10) "需要人工复核" "r" "第3题出错"
    "network down" (by norm_num) (by norm_num) (by decide) (by decide)

/-- C3: for an Error signal arriving outside an active suppression window
the ordered policy holds — a needs-manual-review message is suppressed with
only the UI running-state reset; otherwise a user-initiated-stop message
resets the UI silently with no dialog; otherwise the message is classified
and the interruption dialog is presented. -/
theorem c3_error_policy (u now : ℚ) (m : String) (h : ¬ now < u) :
    (manualReviewPat m = true →
      (handleSignal u now (.error m)).2 = [.disableEsc, .uiState false]) ∧
    (manualReviewPat m = false → userStopPat m = true →
      (handleSignal u now (.error m)).2
        = [.disableEsc, .workerError "用户手动停止"]) ∧
    (manualReviewPat m = false → userStopPat m = false →
      (handleSignal u now (.error m)).2
        = [.disableEsc, .workerError m,
           .showDialog "阅卷中断" (errorDialogBody m), .restoreFront]) := by
  refine ⟨?_, ?_, ?_⟩
  · intro hm
    simp [handleSignal, h, hm]
  · intro hm hs
    simp [handleSignal, h, hm, hs]
  · intro hm hs
    simp [handleSignal, h, hm, hs]

/-- Witness for C3: the user-stop message resets silently; a generic
message is classified and presented. -/
theorem c3_error_policy_witness :
    (handleSignal 0 5 (Signal.error "用户手动停止")).2
      = [.disableEsc, .workerError "用户手动停止"] ∧
    (handleSignal 0 5 (Signal.error "boom")).2
      = [.disableEsc, .workerError "boom",
         .showDialog "阅卷中断" (errorDialogBody "boom"), .restoreFront] :=
  ⟨(c3_error_policy 0 5 "用户手动停止" (by norm_num)).2.1 (by decide) (by decide),
   (c3_error_policy 0 5 "boom" (by norm_num)).2.2 (by decide) (by decide)⟩

/-- C6: for every terminal-signal kind the handler disables the
interceptor unconditionally first — the action trace begins with
`disableEsc`, hence every notification dialog in it comes strictly later. -/
theorem c6_disable_before_dialog (u now : ℚ) (sig : Signal) :
    (handleSignal u now sig).2.head? = some .disableEsc ∧
    ∀ i t m, (handleSignal u now sig).2.get? i = some (.showDialog t m) → 0 < i := by
  cases sig <;> simp only [handleSignal] <;> try split_ifs
  all_goals refine ⟨rfl, ?_⟩
  all_goals rintro (_ | i) t m hi
  all_goals first
    | exact Nat.succ_pos _
    | (exfalso; simp at hi)

/-- Witness for C6 at the Completed signal, whose dialog sits at index 2. -/
theorem c6_disable_before_dialog_witness :
    (handleSignal 0 0 Signal.completed).2.head? = some UiAction.disableEsc ∧ 0 < 2 :=
  ⟨(c6_disable_before_dialog 0 0 .completed).1,
   (c6_disable_before_dialog 0 0 .completed).2 2 "批次完成" completedBody (by decide)⟩

/-- State of the `_WindowsExclusiveEscHook` object: `_enabled`,
`_last_hit_ts`, whether `_hook_handle` is installed, and whether the hook
thread exists (`_thread is not None`) (src/main.py:110-121). -/
structure EscHook where
  enabled : Bool
  lastHitTs : ℚ
  hookHandle : Bool
  threadStarted : Bool
  deriving DecidableEq

/-- Method `_WindowsExclusiveEscHook.set_enabled` (src/main.py:123-125): sets the
flag under the lock; total, cannot raise. -/
def setEnabled (st : EscHook) (b : Bool) : EscHook :=
  {st with enabled := b}

/-- Method `_WindowsExclusiveEscHook.start` (src/main.py:127-181): `false` off
win32; `true` without side effect when the thread already exists; otherwise
spawns the hook thread, which installs the OS hook once, and returns
`true`.  The `Nat` component counts `SetWindowsHookExW` calls performed. -/
def hookStart (isWin32 : Bool) (st : EscHook) : Bool × EscHook × Nat :=
  if isWin32 = false then (false, st, 0)
  else if st.threadStarted then (true, st, 0)
  else (true, {st with threadStarted := true, hookHandle := true}, 1)

/-- Result of the low-level hook callback: `return 1` (swallow) or
`CallNextHookEx` (forward to the next handler). -/
inductive HookResult
  | swallow
  | forward
  deriving DecidableEq

/-- Outcome of one `_hook_proc` invocation: the value returned to the OS,
whether `_on_esc` ran (one stop request scheduled), whether an internal
exception was raised (and caught), and the state afterwards. -/
structure HookOut where
  result : HookResult
  fired : Bool
  faulted : Bool
  state : EscHook
  deriving DecidableEq

/-- Callback `_hook_proc` (src/main.py:141-157).  `shouldSwallow` and `onEsc` are the
injected callbacks (`should_swallow`, `on_esc`); `Except.error` represents a
callback that raises.  `enabled and bool(self._should_swallow())`
short-circuits, so `shouldSwallow` is only consulted when armed.  Any
exception is caught at the callback boundary and the event is forwarded;
the hook handle is never touched by the callback. -/
def hookProcF (st : EscHook) (shouldSwallow : Except Unit Bool)
    (onEsc : Except Unit Unit) (nCode : Int) (wParam vkCode : Nat)
    (now : ℚ) : HookOut :=
  if nCode = 0 ∧ (wParam = 0x0100 ∨ wParam = 0x0104) then
    if vkCode = 0x1B then
      if st.enabled then
        match shouldSwallow with
        | .error _ => ⟨.forward, false, true, st⟩
        | .ok sw =>
          if sw then
            if now - st.lastHitTs ≥ 1/4 then
              match onEsc with
              | .error _ => ⟨.forward, false, true, {st with lastHitTs := now}⟩
              | .ok _ => ⟨.swallow, true, false, {st with lastHitTs := now}⟩
            else ⟨.swallow, false, false, st⟩
          else ⟨.forward, false, false, st⟩
      else ⟨.forward, false, false, st⟩
    else ⟨.forward, false, false, st⟩
  else ⟨.forward, false, false, st⟩

/-- Deliver armed Esc key-down events at the given times; count the stop
requests scheduled. -/
def runEsc (st : EscHook) : List ℚ → Nat × EscHook
  | [] => (0, st)
  | t :: ts =>
      ((if (hookProcF st (.ok true) (.ok ()) 0 0x0100 0x1B t).fired then 1 else 0)
         + (runEsc (hookProcF st (.ok true) (.ok ()) 0 0x0100 0x1B t).state ts).1,
       (runEsc (hookProcF st (.ok true) (.ok ()) 0 0x0100 0x1B t).state ts).2)

/-- An armed, recognized key-down past the debounce interval: swallowed,
one stop request, timestamp updated. -/
theorem hookProc_accept {st : EscHook} {now : ℚ} {w : Nat}
    (he : st.enabled = true) (hw : w = 0x0100 ∨ w = 0x0104)
    (hd : 1/4 ≤ now - st.lastHitTs) :
    hookProcF st (.ok true) (.ok ()) 0 w 0x1B now
      = ⟨.swallow, true, false, {st with lastHitTs := now}⟩ := by
  rcases hw with rfl | rfl <;> simp [hookProcF, he] <;> linarith

/-- An armed, recognized key-down inside the debounce interval: still
swallowed, but no stop request and no state change. -/
theorem hookProc_debounced {st : EscHook} {now : ℚ} {w : Nat}
    (he : st.enabled = true) (hw : w = 0x0100 ∨ w = 0x0104)
    (hd : now - st.lastHitTs < 1/4) :
    hookProcF st (.ok true) (.ok ()) 0 w 0x1B now
      = ⟨.swallow, false, false, st⟩ := by
  rcases hw with rfl | rfl <;> simp [hookProcF, he] <;> linarith

/-- C5, counterexample: while armed, a second recognized key-down 100ms
after an accepted trigger is still swallowed (with no stop request), not
forwarded as the claim states for "every other case". -/
theorem c5_counterexample :
    (hookProcF ⟨true, 0, true, true⟩ (.ok true) (.ok ()) 0 0x0100 0x1B 1).result
      = .swallow ∧
    (hookProcF ⟨true, 0, true, true⟩ (.ok true) (.ok ()) 0 0x0100 0x1B 1).fired
      = true ∧
    (hookProcF ⟨true, 0, true, true⟩ (.ok true) (.ok ()) 0 0x0100 0x1B 1).state
      = ⟨true, 1, true, true⟩ ∧
    (hookProcF ⟨true, 1, true, true⟩ (.ok true) (.ok ()) 0 0x0100 0x1B (11/10)).result
      = .swallow ∧
    (hookProcF ⟨true, 1, true, true⟩ (.ok true) (.ok ()) 0 0x0100 0x1B (11/10)).fired
      = false := by
  refine ⟨?_, ?_, ?_, ?_, ?_⟩ <;> norm_num [hookProcF]

/-- C5 (amended): if the interceptor is armed, the key recognized, and at
least 250ms have elapsed since the last accepted trigger, the event is
swallowed and exactly one stop request is scheduled; if armed and
recognized but within the debounce interval, the event is still swallowed
but no stop request is scheduled; only when not armed, not recognized, or
not a key-down is the event forwarded unchanged.  Consequently two triggers
100ms apart while armed yield exactly one stop request and two triggers
300ms apart yield two. -/
theorem c5_debounce_amended :
    (∀ (st : EscHook) (now : ℚ) (w : Nat), st.enabled = true →
      (w = 0x0100 ∨ w = 0x0104) → 1/4 ≤ now - st.lastHitTs →
      hookProcF st (.ok true) (.ok ()) 0 w 0x1B now
        = ⟨.swallow, true, false, {st with lastHitTs := now}⟩) ∧
    (∀ (st : EscHook) (now : ℚ) (w : Nat), st.enabled = true →
      (w = 0x0100 ∨ w = 0x0104) → now - st.lastHitTs < 1/4 →
      hookProcF st (.ok true) (.ok ()) 0 w 0x1B now
        = ⟨.swallow, false, false, st⟩) ∧
    (∀ (st : EscHook) (sw : Bool) (nCode : Int) (w vk : Nat) (now : ℚ),
      st.enabled = false ∨ sw = false ∨ vk ≠ 0x1B ∨
        ¬ (nCode = 0 ∧ (w = 0x0100 ∨ w = 0x0104)) →
      (hookProcF st (.ok sw) (.ok ()) nCode w vk now).result = .forward ∧
      (hookProcF st (.ok sw) (.ok ()) nCode w vk now).fired = false) ∧
    (∀ t last : ℚ, 1/4 ≤ t - last →
      (runEsc ⟨true, last, true, true⟩ [t, t + 1/10]).1 = 1 ∧
      (runEsc ⟨true, last, true, true⟩ [t, t + 3/10]).1 = 2) := by
  refine ⟨fun st now w he hw hd => hookProc_accept he hw hd,
    fun st now w he hw hd => hookProc_debounced he hw hd, ?_, ?_⟩
  · intro st sw nCode w vk now h
    constructor <;>
      (simp only [hookProcF]
       split_ifs <;>
         first
           | rfl
           | (exfalso; rcases h with h | h | h | h <;> simp_all))
  · intro t last h
    have s1 : hookProcF ⟨true, last, true, true⟩ (.ok true) (.ok ()) 0 0x0100 0x1B t
        = ⟨.swallow, true, false, ⟨true, t, true, true⟩⟩ :=
      hookProc_accept rfl (Or.inl rfl) (by simpa using h)
    have s2 : hookProcF ⟨true, t, true, true⟩ (.ok true) (.ok ()) 0 0x0100 0x1B
        (t + 1/10) = ⟨.swallow, false, false, ⟨true, t, true, true⟩⟩ :=
      hookProc_debounced rfl (Or.inl rfl) (by simp; linarith)
    have s3 : hookProcF ⟨true, t, true, true⟩ (.ok true) (.ok ()) 0 0x0100 0x1B
        (t + 3/10) = ⟨.swallow, true, false, ⟨true, t + 3/10, true, true⟩⟩ :=
      hookProc_accept rfl (Or.inl rfl) (by simp; linarith)
    constructor
    · simp only [runEsc, s1, s2]
      norm_num
    · simp only [runEsc, s1, s3]
      norm_num

/-- Witness for C5 at concrete states and times. -/
theorem c5_debounce_amended_witness :
    hookProcF ⟨true, 0, true, true⟩ (.ok true) (.ok ()) 0 0x0100 0x1B 1
      = ⟨.swallow, true, false, ⟨true, 1, true, true⟩⟩ ∧
    (hookProcF ⟨true, 5, true, true⟩ (.ok false) (.ok ()) 0 0x0100 0x1B 6).result
      = .forward ∧
    (runEsc ⟨true, 0, true, true⟩ [1, 1 + 3/10]).1 = 2 :=
  ⟨c5_debounce_amended.1 ⟨true, 0, true, true⟩ 1 0x0100 rfl (Or.inl rfl) (by norm_num),
   (c5_debounce_amended.2.2.1 ⟨true, 5, true, true⟩ false 0 0x0100 0x1B 6
      (Or.inr (Or.inl rfl))).1,
   (c5_debounce_amended.2.2.2 1 0 (by norm_num)).2⟩

/-- C9: whenever an exception is raised inside the hook callback it is
caught at the callback boundary — the event is still forwarded to the next
handler, no stop request fires, and the installed hook resource and hook
thread are untouched. -/
theorem c9_callback_fault (st : EscHook) (sw : Except Unit Bool)
    (oe : Except Unit Unit) (nCode : Int) (w vk : Nat) (now : ℚ)
    (h : (hookProcF st sw oe nCode w vk now).faulted = true) :
    (hookProcF st sw oe nCode w vk now).result = .forward ∧
    (hookProcF st sw oe nCode w vk now).fired = false ∧
    (hookProcF st sw oe nCode w vk now).state.hookHandle = st.hookHandle ∧
    (hookProcF st sw oe nCode w vk now).state.threadStarted = st.threadStarted := by
  rcases sw with e | sw0
  · simp only [hookProcF] at h ⊢
    split_ifs at h ⊢ <;> simp_all
  · rcases oe with e2 | u
    · simp only [hookProcF] at h ⊢
      split_ifs at h ⊢ <;> simp_all
    · simp only [hookProcF] at h
      split_ifs at h <;> simp_all

/-- Witness for C9: a faulting `should_swallow` on an armed hook. -/
theorem c9_callback_fault_witness :
    (hookProcF ⟨true, 0, true, true⟩ (.error ()) (.ok ()) 0 0x0100 0x1B 1).faulted
      = true ∧
    (hookProcF ⟨true, 0, true, true⟩ (.error ()) (.ok ()) 0 0x0100 0x1B 1).result
      = .forward ∧
    (hookProcF ⟨true, 0, true, true⟩ (.error ()) (.ok ()) 0 0x0100 0x1B 1).state.hookHandle
      = true :=
  ⟨by simp [hookProcF],
   (c9_callback_fault ⟨true, 0, true, true⟩ (.error ()) (.ok ()) 0 0x0100 0x1B 1
      (by simp [hookProcF])).1,
   (c9_callback_fault ⟨true, 0, true, true⟩ (.error ()) (.ok ()) 0 0x0100 0x1B 1
      (by simp [hookProcF])).2.2.1⟩

/-- Application-level exclusive-Esc state: the built-in hook object plus
the optional `keyboard`-library hotkey id (`_exclusive_esc_hotkey_id`,
src/main.py:425). -/
structure AppEsc where
  hook : EscHook
  hotkeyId : Option Nat
  deriving DecidableEq

/-- Method `Application._disable_exclusive_esc` (src/main.py:634-653): always
`set_enabled(False)` on the built-in hook; then, only when the `keyboard`
library is importable, remove and clear the registered hotkey.  Every
statement is wrapped in try/except/finally in the source, so the call never
raises; the model is accordingly total. -/
def disableExclusiveEsc (keyboardAvail : Bool) (st : AppEsc) : AppEsc :=
  let st1 : AppEsc := {st with hook := setEnabled st.hook false}
  if keyboardAvail = false then st1 else {st1 with hotkeyId := none}

/-- Method `Application._enable_exclusive_esc_if_possible` (src/main.py:595-632):
a no-op off win32; on win32 the built-in hook object always exists, so the
call reduces to `set_enabled(True)` and returns (the `keyboard`-library
fallback branch is unreachable). -/
def enableExclusiveEscIfPossible (isWin32 : Bool) (st : AppEsc) : AppEsc :=
  if isWin32 = false then st
  else {st with hook := setEnabled st.hook true}

/-- The operations the surrounding application performs on the subsystem. -/
inductive EscOp
  | start
  | enable
  | disable

/-- Apply one operation to the application state (`start`'s return value is
observed separately through `hookStart`). -/
def applyEscOp (isWin32 keyboardAvail : Bool) (st : AppEsc) : EscOp → AppEsc
  | .start => {st with hook := (hookStart isWin32 st.hook).2.1}
  | .enable => enableExclusiveEscIfPossible isWin32 st
  | .disable => disableExclusiveEsc keyboardAvail st

/-- Apply a sequence of operations. -/
def applyEscOps (isWin32 keyboardAvail : Bool) : AppEsc → List EscOp → AppEsc
  | st, [] => st
  | st, op :: ops =>
      applyEscOps isWin32 keyboardAvail (applyEscOp isWin32 keyboardAvail st op) ops

/-- Fate of an Esc key-down under application state `st`: the built-in hook
callback decides only while its thread is running; a registered
`keyboard`-library hotkey (`suppress=True`) swallows; otherwise the key
reaches the next handler untouched. -/
inductive KeyFate
  | swallowed
  | forwarded
  deriving DecidableEq

/-- Disposition of an Esc key-down event for the whole subsystem. -/
def escKeyFate (st : AppEsc) (workerRunning : Bool) (now : ℚ) : KeyFate :=
  if st.hook.threadStarted then
    match (hookProcF st.hook (.ok workerRunning) (.ok ()) 0 0x0100 0x1B now).result with
    | .swallow => .swallowed
    | .forward => .forwarded
  else if st.hotkeyId.isSome then .swallowed
  else .forwarded

/-- Initial application state: hook disabled, no thread, no hotkey
(src/main.py:110-121, 425-431). -/
def initAppEsc : AppEsc := ⟨⟨false, 0, false, false⟩, none⟩

/-- C7: calling `disable()` while the interceptor is already disabled is a
no-op (the source wraps every statement in try/except, so it never
raises); `start()` called twice on the capable platform reports success
both times and installs the OS hook exactly once. -/
theorem c7_disable_noop_start_once (a : AppEsc) (k : Bool) (st : EscHook)
    (hd1 : a.hook.enabled = false) (hd2 : a.hotkeyId = none)
    (hs : st.threadStarted = false) :
    disableExclusiveEsc k a = a ∧
    (hookStart true st).1 = true ∧
    (hookStart true (hookStart true st).2.1).1 = true ∧
    (hookStart true st).2.2 + (hookStart true (hookStart true st).2.1).2.2 = 1 := by
  refine ⟨?_, ?_, ?_, ?_⟩
  · obtain ⟨⟨e, l, hh, ts⟩, hid⟩ := a
    dsimp only at hd1 hd2
    subst hd1 hd2
    cases k <;> rfl
  · simp [hookStart, hs]
  · simp [hookStart, hs]
  · simp [hookStart, hs]

/-- Witness for C7 at a concrete disabled state and a concrete fresh hook. -/
theorem c7_disable_noop_start_once_witness :
    disableExclusiveEsc true ⟨⟨false, 3, true, true⟩, none⟩
      = ⟨⟨false, 3, true, true⟩, none⟩ ∧
    (hookStart true ⟨false, 0, false, false⟩).1 = true ∧
    (hookStart true (hookStart true ⟨false, 0, false, false⟩).2.1).1 = true ∧
    (hookStart true ⟨false, 0, false, false⟩).2.2
      + (hookStart true (hookStart true ⟨false, 0, false, false⟩).2.1).2.2 = 1 :=
  c7_disable_noop_start_once ⟨⟨false, 3, true, true⟩, none⟩ true
    ⟨false, 0, false, false⟩ rfl rfl rfl

/-- C8: off the capable platform with no managed hotkey library:
`start()` reports `false` and installs nothing, every sequence of
start/enable/disable operations leaves the subsystem in its initial state,
and no key event is ever swallowed. -/
theorem c8_unavailable_noop :
    hookStart false initAppEsc.hook = (false, initAppEsc.hook, 0) ∧
    (∀ ops : List EscOp, applyEscOps false false initAppEsc ops = initAppEsc) ∧
    (∀ (ops : List EscOp) (running : Bool) (now : ℚ),
      escKeyFate (applyEscOps false false initAppEsc ops) running now
        = .forwarded) := by
  have hop : ∀ op, applyEscOp false false initAppEsc op = initAppEsc := by
    intro op
    cases op <;> rfl
  have hops : ∀ ops, applyEscOps false false initAppEsc ops = initAppEsc := by
    intro ops
    induction ops with
    | nil => rfl
    | cons op ops ih =>
      simp only [applyEscOps, hop]
      exact ih
  refine ⟨rfl, hops, ?_⟩
  intro ops running now
  rw [hops]
  rfl
